import Mathlib

/-!
Verification of the HelixPrint Moonraker component
(`src/moonraker-plugin/helix_print.py`) against its natural-language
specification.

The embedding models the component as pure functions over an explicit
state: the gcodes filesystem subtree is a finite association list from
relative paths to entries (regular file or symlink), the thumbnails
directory is a separate optional association list, the in-memory
registry of active prints is an association list keyed by
`symlink_filename`, and the durable SQLite table is a list of rows.
External nondeterminism (clock, OS-level symlink failure, Klippy
print-start failure, database failure) is supplied by an `Env` record.
Python strings are modelled by Lean `String`, with character-level
operations (substring search, replace, path splitting) implemented over
`List Char` to mirror Python's code-point semantics.
-/

/-! ## Character-list string helpers (Python `str` / `pathlib` semantics) -/

/-- Python `pre in s` / `s.startswith(pre)` style prefix test, by code points. -/
def strStarts (s pre : String) : Bool :=
  pre.toList.isPrefixOf s.toList

/-- Python `pat in s` substring containment on character lists.
For nonempty `pat` this is exactly non-overlapping substring search. -/
def containsSeg (pat : List Char) : List Char → Bool
  | [] => pat.isEmpty
  | c :: rest => pat.isPrefixOf (c :: rest) || containsSeg pat rest

/-- Python `".." in filename` (helix_print.py line 178). -/
def dotdotIn (s : String) : Bool :=
  containsSeg ['.', '.'] s.toList

/-- Python `str.replace(old, new)` worker: left-to-right non-overlapping
replacement of every occurrence of a nonempty pattern.  Structural
recursion on a fuel argument (always called with fuel = input length,
which suffices because every step consumes at least one character). -/
def replaceSegGo (pat rep : List Char) : Nat → List Char → List Char
  | 0, l => l
  | _, [] => []
  | fuel + 1, c :: rest =>
      if pat.isPrefixOf (c :: rest) then
        rep ++ replaceSegGo pat rep fuel (rest.drop (pat.length - 1))
      else
        c :: replaceSegGo pat rep fuel rest

/-- Python `str.replace` on `String`.  (For the degenerate empty pattern
this returns the input unchanged; the component only ever calls it with a
nonempty file-name stem.) -/
def strReplace (s pat rep : String) : String :=
  if pat.toList.isEmpty then s
  else String.mk (replaceSegGo pat.toList rep.toList s.toList.length s.toList)

/-- Split a character list on `/` separators (the raw components of a
POSIX path, empty components included). -/
def compsAux (acc : List Char) : List Char → List (List Char)
  | [] => [acc.reverse]
  | c :: rest => if c = '/' then acc.reverse :: compsAux [] rest else compsAux (c :: acc) rest

/-- `pathlib.PurePosixPath.parts` semantics for a relative path: split on
`/`, dropping empty components and single-dot components. -/
def pathParts (p : String) : List (List Char) :=
  (compsAux [] p.toList).filter (fun c => !(c.isEmpty || c == ['.']))

/-- The final path component, as characters (`Path(p).name`). -/
def nameChars (p : String) : List Char :=
  (pathParts p).getLastD []

/-- `pathlib.Path(p).name`. -/
def pathName (p : String) : String :=
  String.mk (nameChars p)

/-- `pathlib.Path(p).stem` as characters: the name with its final suffix
removed, where a suffix requires a dot that is neither the first nor the
last character of the name (CPython's rule). -/
def stemChars (p : String) : List Char :=
  let n := nameChars p
  match n.reverse.findIdx? (fun c => c == '.') with
  | none => n
  | some k =>
      let i := n.length - 1 - k
      if 0 < i ∧ i < n.length - 1 then n.take i else n

/-- `pathlib.Path(p).stem`. -/
def pathStem (p : String) : String :=
  String.mk (stemChars p)

/-- A filename contains a parent-directory segment when one of its raw
`/`-separated components is exactly `..`.  This is the spec's notion of a
"parent-directory segment"; the source code itself only tests for the
two-character substring. -/
def hasParentSeg (n : String) : Bool :=
  (compsAux [] n.toList).any (fun c => c == ['.', '.'])

/-! ## Association-list dictionaries (Python `dict` keyed by `str`) -/

/-- Lookup in an association list (first binding wins). -/
def dictLookup {β : Type} : List (String × β) → String → Option β
  | [], _ => none
  | e :: rest, k => if e.1 = k then some e.2 else dictLookup rest k

/-- Remove every binding for a key. -/
def dictErase {β : Type} : List (String × β) → String → List (String × β)
  | [], _ => []
  | e :: rest, k => if e.1 = k then dictErase rest k else e :: dictErase rest k

/-- Insert or overwrite the binding for a key. -/
def dictInsert {β : Type} (d : List (String × β)) (k : String) (v : β) : List (String × β) :=
  (k, v) :: dictErase d k

/-- Number of bindings carried by a key. -/
def countKey {β : Type} : List (String × β) → String → Nat
  | [], _ => 0
  | e :: rest, k => (if e.1 = k then 1 else 0) + countKey rest k

theorem dictLookup_erase_self {β : Type} (d : List (String × β)) (k : String) :
    dictLookup (dictErase d k) k = none := by
  induction d with
  | nil => rfl
  | cons e rest ih =>
    by_cases he : e.1 = k
    · simpa [dictErase, he] using ih
    · simpa [dictErase, dictLookup, he] using ih

theorem dictLookup_erase_ne {β : Type} (d : List (String × β)) (k k' : String)
    (h : k ≠ k') : dictLookup (dictErase d k) k' = dictLookup d k' := by
  induction d with
  | nil => rfl
  | cons e rest ih =>
    by_cases he : e.1 = k
    · simp only [dictErase, if_pos he, dictLookup]
      rw [ih]
      have hne : ¬ (e.1 = k') := fun hc => h (he.symm.trans hc)
      rw [if_neg hne]
    · simp only [dictErase, if_neg he, dictLookup]
      by_cases hk : e.1 = k'
      · rw [if_pos hk, if_pos hk]
      · rw [if_neg hk, if_neg hk, ih]

theorem dictLookup_insert_self {β : Type} (d : List (String × β)) (k : String) (v : β) :
    dictLookup (dictInsert d k v) k = some v := by
  simp [dictInsert, dictLookup]

theorem dictLookup_insert_ne {β : Type} (d : List (String × β)) (k k' : String) (v : β)
    (h : k ≠ k') : dictLookup (dictInsert d k v) k' = dictLookup d k' := by
  simp only [dictInsert, dictLookup, if_neg h]
  exact dictLookup_erase_ne d k k' h

theorem countKey_erase_self {β : Type} (d : List (String × β)) (k : String) :
    countKey (dictErase d k) k = 0 := by
  induction d with
  | nil => rfl
  | cons e rest ih =>
    by_cases he : e.1 = k
    · simpa [dictErase, he] using ih
    · simpa [dictErase, countKey, he] using ih

theorem countKey_erase_ne {β : Type} (d : List (String × β)) (k k' : String)
    (h : k ≠ k') : countKey (dictErase d k) k' = countKey d k' := by
  induction d with
  | nil => rfl
  | cons e rest ih =>
    by_cases he : e.1 = k
    · simp only [dictErase, if_pos he, countKey]
      rw [ih]
      have hne : ¬ (e.1 = k') := fun hc => h (he.symm.trans hc)
      rw [if_neg hne]
      omega
    · simp only [dictErase, if_neg he, countKey]
      rw [ih]

theorem countKey_insert_self {β : Type} (d : List (String × β)) (k : String) (v : β) :
    countKey (dictInsert d k v) k = 1 := by
  simp [dictInsert, countKey, countKey_erase_self]

theorem countKey_insert_ne {β : Type} (d : List (String × β)) (k k' : String) (v : β)
    (h : k ≠ k') : countKey (dictInsert d k v) k' = countKey d k' := by
  simp only [dictInsert, countKey, if_neg h]
  rw [countKey_erase_ne d k k' h]
  omega

/-! ## Sanity checks for the string helpers -/

example : dotdotIn "my..file.gcode" = true := by decide
example : dotdotIn "a/b.gcode" = false := by decide
example : hasParentSeg "a/../b" = true := by decide
example : hasParentSeg "my..file.gcode" = false := by decide
example : pathName "dir/model.gcode" = "model.gcode" := by decide
example : pathStem "dir/model.gcode" = "model" := by decide
example : pathStem ".hidden" = ".hidden" := by decide
example : strReplace "orig.png" "orig" "mod" = "mod.png" := by decide
example : strStarts ".helix_print/m.gcode" ".helix_print/" = true := by decide

/-! ## Data model -/

/-- An entry in the modelled filesystem: a regular file or a symlink
carrying its target path. -/
inductive FsEntry
  | file
  | symlink (target : String)
deriving DecidableEq

/-- The gcodes subtree (or the thumbnails directory): relative path / name
to entry. -/
abbrev Fs := List (String × FsEntry)

/-- Entry is a symlink (Python `Path.is_symlink`, true also for dangling
links). -/
def isSymlinkEntry : FsEntry → Bool
  | .file => false
  | .symlink _ => true

/-- Python `Path.is_symlink()` at a path. -/
def isSymlinkAt (fs : Fs) (p : String) : Bool :=
  match dictLookup fs p with
  | some (.symlink _) => true
  | _ => false

/-- Python `Path.exists()` at a path: follows one level of symlink; a
dangling symlink does not exist.  (Symlink chains do not arise in this
component: links always target regular files.) -/
def fsExists (fs : Fs) (p : String) : Bool :=
  match dictLookup fs p with
  | some .file => true
  | some (.symlink t) =>
      match dictLookup fs t with
      | some .file => true
      | _ => false
  | none => false

/-- The error raised via `self.server.error(msg, code)`. -/
structure SrvError where
  msg : String
  code : Nat
deriving DecidableEq

/-- `PrintInfo` (helix_print.py lines 56-73): one active modified print. -/
structure PrintInfo where
  original_filename : String
  temp_filename : String
  symlink_filename : String
  modifications : List String
  start_time : Int
  job_id : Option String
  db_id : Option Nat
deriving DecidableEq

/-- One row of the `helix_temp_files` durable table (lines 269-283). -/
structure DbRow where
  id : Nat
  original_filename : String
  temp_filename : String
  symlink_filename : String
  modifications : String
  job_id : Option String
  created_at : Int
  cleanup_scheduled_at : Option Int
  status : String
deriving DecidableEq

/-- A value stored in a history job's `auxiliary_data` mapping. -/
inductive AuxVal
  | strVal (s : String)
  | listVal (l : List String)
deriving DecidableEq

/-- A job record in Moonraker's history store, as this component sees it. -/
structure Job where
  filename : String
  auxiliary_data : List (String × AuxVal)
deriving DecidableEq

/-- The history capability: which operations the host exposes, and the
stored jobs keyed by job id. -/
structure HistoryStore where
  hasGetJob : Bool
  hasModifyJob : Bool
  jobs : List (String × Job)
deriving DecidableEq

/-- Component configuration (lines 92-95). -/
structure Config where
  enabled : Bool
  temp_dir : String
  symlink_dir : String
  cleanup_delay : Int
deriving DecidableEq

/-- External nondeterminism for one request: the clock and whether each
external call fails. -/
structure Env where
  now : Int
  osSymlinkFails : Bool
  klippyFails : Bool
  dbFails : Bool
deriving DecidableEq

/-- The `print_modified` request parameters (lines 336-339). -/
structure Request where
  original_filename : String
  temp_file_path : String
  modifications : List String
  copy_metadata : Bool
deriving DecidableEq

/-- The success response of `print_modified` (lines 428-433). -/
structure Response where
  original_filename : String
  print_filename : String
  temp_filename : String
  status : String
deriving DecidableEq

/-- A pending one-shot cleanup timer (fire time, temp filename). -/
abbrev Timer := Int × String

/-- The component state: gcodes filesystem, optional thumbnails
directory, in-memory registry keyed by `symlink_filename`, durable table,
autoincrement counter, optional history capability and armed timers.
`gcReady` models `self.gc_path is not None`, `useSqlite` models
`self._use_sqlite`. -/
structure HPState where
  gcReady : Bool
  useSqlite : Bool
  gcFs : Fs
  thumbs : Option Fs
  active_prints : List (String × PrintInfo)
  db : List DbRow
  nextId : Nat
  history : Option HistoryStore
  timers : List Timer
deriving DecidableEq

/-! ## Path Validator (`_validate_filename`, lines 160-179) -/

/-- `_validate_filename`: reject empty names, null bytes / control
characters, absolute paths and any occurrence of the substring `..`. -/
def validate_filename (filename : String) : Except SrvError Unit :=
  if filename.toList.isEmpty then
    .error ⟨"Filename cannot be empty", 400⟩
  else if filename.toList.contains (Char.ofNat 0) || filename.toList.any (fun c => c.toNat < 32) then
    .error ⟨"Filename contains invalid characters", 400⟩
  else if strStarts filename "/" then
    .error ⟨"Filename cannot be absolute path", 400⟩
  else if dotdotIn filename then
    .error ⟨"Filename cannot contain ..", 400⟩
  else
    .ok ()

/-! ## Symlink Manager (`_create_symlink_atomic`, lines 435-447) -/

/-- Errors `Path.symlink_to` can raise in this model. -/
inductive SymErr
  | fileExists
  | osError
deriving DecidableEq

/-- `Path.symlink_to`: fails with `FileExistsError` when any entry is
already present at the link path; `osFail` injects any other OS-level
failure. -/
def symlink_to (osFail : Bool) (fs : Fs) (link target : String) : Except SymErr Fs :=
  if osFail then .error .osError
  else
    match dictLookup fs link with
    | some _ => .error .fileExists
    | none => .ok (dictInsert fs link (.symlink target))

/-- `_create_symlink_atomic`: try to create; on `FileExistsError` unlink
whatever is there (symlink or file) and retry exactly once. -/
def create_symlink_atomic (osFail : Bool) (fs : Fs) (link target : String) : Except SymErr Fs :=
  match symlink_to osFail fs link target with
  | .ok fs' => .ok fs'
  | .error .osError => .error .osError
  | .error .fileExists =>
      let fs1 := if isSymlinkAt fs link || fsExists fs link then dictErase fs link else fs
      symlink_to osFail fs1 link target

/-! ## Metadata Linker (`_copy_metadata`, lines 453-482) -/

/-- `_copy_metadata`: for every thumbnail whose name starts with the
original file's stem, create an alias named with the temp file's stem
substituted, pointing at the original thumbnail — skipping names already
present.  Per-thumbnail failures are absorbed and never abort the
workflow. -/
def copy_metadata (original_path temp_path : String) (s : HPState) : HPState :=
  if !s.gcReady then s
  else
    match s.thumbs with
    | none => s
    | some th =>
      let ostem := pathStem original_path
      let tstem := pathStem temp_path
      let matched := th.filter (fun e => strStarts e.1 ostem)
      let newTh := matched.foldl (fun acc e =>
          let newName := strReplace e.1 ostem tstem
          match dictLookup acc newName with
          | some _ => acc
          | none => dictInsert acc newName (FsEntry.symlink e.1)) th
      { s with thumbs := some newTh }

/-! ## Persistent Tracker (`_persist_print_info`, lines 488-512) -/

/-- Serialized form of the modifications list (`json.dumps`), for
escape-free tag strings. -/
def modsJson (l : List String) : String :=
  "[" ++ String.intercalate ", " (l.map (fun s => "\"" ++ s ++ "\"")) ++ "]"

/-- `_persist_print_info`: best-effort insert of the durable row; on
database failure logs a warning and leaves `db_id` unset (memory-only
tracking).  Returns the (possibly updated) record alongside the state:
Python mutates the registered object in place, so the caller re-registers
the returned record. -/
def persist_print_info (env : Env) (pi : PrintInfo) (s : HPState) : PrintInfo × HPState :=
  if !s.useSqlite then (pi, s)
  else if env.dbFails then (pi, s)
  else
    let row : DbRow :=
      { id := s.nextId
        original_filename := pi.original_filename
        temp_filename := pi.temp_filename
        symlink_filename := pi.symlink_filename
        modifications := modsJson pi.modifications
        job_id := none
        created_at := env.now
        cleanup_scheduled_at := none
        status := "active" }
    ({ pi with db_id := some s.nextId },
     { s with db := s.db ++ [row], nextId := s.nextId + 1 })

/-! ## The `print_modified` endpoint (`_handle_print_modified`, lines 307-433) -/

/-- The `PrintInfo` record built at lines 402-408. -/
def mkPrintInfo (env : Env) (req : Request) (key : String) : PrintInfo :=
  { original_filename := req.original_filename
    temp_filename := req.temp_file_path
    symlink_filename := key
    modifications := req.modifications
    start_time := env.now
    job_id := none
    db_id := none }

/-- Lines 401-412 of `_handle_print_modified`: register the print in the
in-memory registry and best-effort persist it.  The registry ends up
holding the record as (possibly) updated by persistence, mirroring
Python's in-place mutation of the registered object. -/
def registerAndPersist (env : Env) (req : Request) (key : String) (fs2 : Fs) (s1 : HPState) :
    PrintInfo × HPState :=
  let pi := mkPrintInfo env req key
  let s2 := { s1 with gcFs := fs2, active_prints := dictInsert s1.active_prints key pi }
  let persisted := persist_print_info env pi s2
  (persisted.1,
   { persisted.2 with active_prints := dictInsert persisted.2.active_prints key persisted.1 })

/-- Lines 401-433 of `_handle_print_modified`: after the symlink has been
created (`fs2` is the filesystem holding it), register and persist the
print, then issue the print-start command; on its failure unlink the
symlink and the temp file, drop the registry entry, and raise. -/
def handle_with_link (cfg : Config) (env : Env) (req : Request) (s1 : HPState)
    (key : String) (fs2 : Fs) : Except SrvError Response × HPState :=
  if env.klippyFails then
    (.error ⟨"Failed to start print", 500⟩,
     { (registerAndPersist env req key fs2 s1).2 with
         gcFs := dictErase (dictErase (registerAndPersist env req key fs2 s1).2.gcFs key)
                   req.temp_file_path,
         active_prints := dictErase (registerAndPersist env req key fs2 s1).2.active_prints key })
  else
    (.ok { original_filename := req.original_filename
           print_filename := key
           temp_filename := req.temp_file_path
           status := "printing" },
     (registerAndPersist env req key fs2 s1).2)

/-- Lines 378-433 of `_handle_print_modified`: the continuation after all
validation checks passed and thumbnails were (optionally) mirrored into
`s1`.  Create the symlink under the original base name inside
`symlink_dir`, rolling back the temp file on failure, then hand over to
`handle_with_link`. -/
def handle_after_checks (cfg : Config) (env : Env) (req : Request) (s1 : HPState) :
    Except SrvError Response × HPState :=
  match create_symlink_atomic env.osSymlinkFails s1.gcFs
      (cfg.symlink_dir ++ "/" ++ pathName req.original_filename) req.temp_file_path with
  | .error _ =>
      (.error ⟨"Failed to create symlink", 500⟩,
       { s1 with gcFs := dictErase s1.gcFs req.temp_file_path })
  | .ok fs2 =>
      handle_with_link cfg env req s1
        (cfg.symlink_dir ++ "/" ++ pathName req.original_filename) fs2

/-- `_handle_print_modified`: validate both supplied paths, check the
original exists and is not itself a symlink, check the uploaded temp file
exists, optionally mirror thumbnails, then create the symlink, register,
persist and start the print via the continuations above.  Returns the
response (or the raised error) together with the state as it stands when
control leaves the handler. -/
def handle_print_modified (cfg : Config) (env : Env) (req : Request) (s : HPState) :
    Except SrvError Response × HPState :=
  if !cfg.enabled then (.error ⟨"HelixPrint component is disabled", 503⟩, s)
  else if !s.gcReady then (.error ⟨"File manager not initialized", 500⟩, s)
  else
    match validate_filename req.original_filename with
    | .error e => (.error e, s)
    | .ok _ =>
      match validate_filename req.temp_file_path with
      | .error e => (.error e, s)
      | .ok _ =>
        if !(fsExists s.gcFs req.original_filename) then
          (.error ⟨"Original file not found", 400⟩, s)
        else if isSymlinkAt s.gcFs req.original_filename then
          (.error ⟨"Original file cannot be a symlink", 400⟩, s)
        else if !(fsExists s.gcFs req.temp_file_path) then
          (.error ⟨"Temp file not found", 400⟩, s)
        else
          handle_after_checks cfg env req
            (if req.copy_metadata then
               copy_metadata req.original_filename req.temp_file_path s
             else s)

/-! ## Cleanup Scheduler (`_cleanup_thumbnail_symlinks`, `_schedule_cleanup`, lines 620-680) -/

/-- `_cleanup_thumbnail_symlinks`: remove every thumbnail entry that is a
symlink and whose name starts with the temp file's stem. -/
def cleanup_thumbnail_symlinks (temp_filename : String) (s : HPState) : HPState :=
  if !s.gcReady then s
  else
    match s.thumbs with
    | none => s
    | some th =>
      let stem := pathStem temp_filename
      { s with thumbs := some (th.filter (fun e => !(strStarts e.1 stem && isSymlinkEntry e.2))) }

/-- `_schedule_cleanup`: immediately unlink the filename alias (if it is
a symlink) and the mirrored thumbnail aliases, best-effort mark the
durable row `pending_cleanup` with the scheduled time, and arm the
one-shot deferred deletion timer. -/
def schedule_cleanup (cfg : Config) (env : Env) (pi : PrintInfo) (s : HPState) : HPState :=
  if !s.gcReady then s
  else
    let fs1 := if isSymlinkAt s.gcFs pi.symlink_filename then
                 dictErase s.gcFs pi.symlink_filename
               else s.gcFs
    let s1 := cleanup_thumbnail_symlinks pi.temp_filename { s with gcFs := fs1 }
    let s2 := if s1.useSqlite && !env.dbFails then
        { s1 with db := s1.db.map (fun r =>
            if r.temp_filename = pi.temp_filename then
              { r with cleanup_scheduled_at := some (env.now + cfg.cleanup_delay),
                       status := "pending_cleanup" }
            else r) }
      else s1
    { s2 with timers := s2.timers ++ [(env.now + cfg.cleanup_delay, pi.temp_filename)] }

/-! ## History Patcher (`_patch_history_entry`, lines 563-614) -/

/-- Strip the `symlink_dir/` prefix from a recorded filename when present
(lines 590-592). -/
def stripDirPart (dir original : String) : String :=
  if strStarts original (dir ++ "/") then
    String.mk (original.toList.drop (dir.length + 1))
  else original

/-- `_patch_history_entry`: skipped silently when `job_id` was never
captured or the history capability lacks `get_job`/`modify_job`; skipped
when the job is not found; otherwise writes back the display filename
(symlink-dir prefix stripped) and the job's auxiliary data with the four
substitution keys merged in. -/
def patch_history_entry (cfg : Config) (pi : PrintInfo) (h : HistoryStore) : HistoryStore :=
  match pi.job_id with
  | none => h
  | some jid =>
    if !(h.hasGetJob && h.hasModifyJob) then h
    else
      match dictLookup h.jobs jid with
      | none => h
      | some job =>
        let original := stripDirPart cfg.symlink_dir pi.original_filename
        let aux0 := job.auxiliary_data
        let aux1 := dictInsert aux0 "helix_modifications" (AuxVal.listVal pi.modifications)
        let aux2 := dictInsert aux1 "helix_temp_file" (AuxVal.strVal pi.temp_filename)
        let aux3 := dictInsert aux2 "helix_symlink" (AuxVal.strVal pi.symlink_filename)
        let aux4 := dictInsert aux3 "helix_original" (AuxVal.strVal pi.original_filename)
        { h with jobs := dictInsert h.jobs jid { filename := original, auxiliary_data := aux4 } }

/-! ## Lifecycle State Machine (`_on_job_state_changed`, lines 523-561) -/

/-- The job-state event payload this component consumes. -/
structure JobStats where
  state : String
  filename : String
  job_id : Option String
deriving DecidableEq

/-- `_on_job_state_changed`: ignore filenames outside `symlink_dir/` or
not registered; on `"printing"` capture a truthy `job_id`; on a terminal
state patch history (when the history capability is present), schedule
cleanup, and drop the record from the registry. -/
def on_job_state_changed (cfg : Config) (env : Env) (stats : JobStats) (s : HPState) : HPState :=
  if !(strStarts stats.filename (cfg.symlink_dir ++ "/")) then s
  else
    match dictLookup s.active_prints stats.filename with
    | none => s
    | some pi0 =>
      let pi := if stats.state = "printing" then
                  match stats.job_id with
                  | some j => if j.toList.isEmpty then pi0 else { pi0 with job_id := some j }
                  | none => pi0
                else pi0
      let s0 := if stats.state = "printing" then
                  { s with active_prints := dictInsert s.active_prints stats.filename pi }
                else s
      if stats.state = "complete" ∨ stats.state = "cancelled" ∨ stats.state = "error" then
        let s1 := { s0 with history :=
                      match s0.history with
                      | some h => some (patch_history_entry cfg pi h)
                      | none => none }
        let s2 := schedule_cleanup cfg env pi s1
        { s2 with active_prints := dictErase s2.active_prints stats.filename }
      else s0

/-! ## Startup reconciliation (`_startup_cleanup`, lines 708-773) -/

/-- Maximum age for cleaned database records before deletion (line 50:
30 days in seconds). -/
def DB_RECORD_MAX_AGE : Int := 30 * 86400

/-- Whether a durable row is selected by the reconciliation query
(`status = pending_cleanup AND cleanup_scheduled_at < now`; a NULL
schedule compares false in SQL). -/
def overdueRow (now : Int) (r : DbRow) : Bool :=
  r.status = "pending_cleanup" &&
    (match r.cleanup_scheduled_at with
     | some t => decide (t < now)
     | none => false)

/-- `if temp_path.exists(): temp_path.unlink()` (lines 736-737). -/
def fsAfterTempUnlink (fs : Fs) (r : DbRow) : Fs :=
  if fsExists fs r.temp_filename then dictErase fs r.temp_filename else fs

/-- `if symlink_path.is_symlink(): symlink_path.unlink()` (lines 738-739). -/
def fsAfterSymlinkUnlink (fs : Fs) (r : DbRow) : Fs :=
  if isSymlinkAt fs r.symlink_filename then dictErase fs r.symlink_filename else fs

/-- The SQL `UPDATE ... SET status = cleaned WHERE temp_filename = ?`
(lines 745-752): affects every row carrying the temp filename. -/
def dbMarkCleaned (db : List DbRow) (temp : String) : List DbRow :=
  db.map (fun row => if row.temp_filename = temp then { row with status := "cleaned" } else row)

/-- The per-row body of the startup-cleanup loop (lines 728-753): delete
the temp file if it exists, unlink the alias if it is a symlink, remove
the mirrored thumbnail aliases, and set every row carrying this
`temp_filename` to `cleaned`. -/
def cleanupRow (s : HPState) (r : DbRow) : HPState :=
  let s1 := cleanup_thumbnail_symlinks r.temp_filename
    { s with gcFs := fsAfterSymlinkUnlink (fsAfterTempUnlink s.gcFs r) r }
  { s1 with db := dbMarkCleaned s1.db r.temp_filename }

/-- `_startup_cleanup`: run once at startup; for every overdue
`pending_cleanup` row perform the synchronous cleanup, then purge
`cleaned` rows older than the retention window.  A database failure
aborts the whole pass (logged, absorbed, state unchanged). -/
def startup_cleanup (env : Env) (s : HPState) : HPState :=
  if !s.gcReady || !s.useSqlite then s
  else if env.dbFails then s
  else
    let rows := s.db.filter (overdueRow env.now)
    let s1 := rows.foldl cleanupRow s
    { s1 with db := s1.db.filter (fun r =>
        !(r.status = "cleaned" && decide (r.created_at < env.now - DB_RECORD_MAX_AGE))) }

/-! ## Validator lemmas -/

theorem containsSeg_iff (pat l : List Char) : containsSeg pat l = true ↔ pat <:+: l := by
  induction l with
  | nil => simp [containsSeg, List.isEmpty_iff, List.infix_nil]
  | cons c rest ih =>
    simp [containsSeg, List.infix_cons_iff, List.isPrefixOf_iff_prefix, ih]

theorem compsAux_parent_infix :
    ∀ (l acc : List Char), ((compsAux acc l).any (fun c => c == ['.', '.'])) = true →
      ['.', '.'] <:+: (acc.reverse ++ l)
  | [], acc, h => by
      simp only [compsAux, List.any_cons, List.any_nil, Bool.or_false] at h
      have hrev : acc.reverse = ['.', '.'] := by simpa using h
      simp [hrev]
  | c :: rest, acc, h => by
      by_cases hc : c = '/'
      · rw [compsAux, if_pos hc] at h
        simp only [List.any_cons, Bool.or_eq_true] at h
        rcases h with h | h
        · have hrev : acc.reverse = ['.', '.'] := by simpa using h
          rw [← hrev]
          exact (List.prefix_append acc.reverse (c :: rest)).isInfix
        · have hrest := compsAux_parent_infix rest [] h
          simp only [List.reverse_nil, List.nil_append] at hrest
          exact hrest.trans
            (((List.suffix_cons c rest).trans (List.suffix_append acc.reverse (c :: rest))).isInfix)
      · rw [compsAux, if_neg hc] at h
        have hr := compsAux_parent_infix rest (c :: acc) h
        simpa [List.append_assoc] using hr

/-- A filename containing a parent-directory segment contains the
substring `..` the source code tests for. -/
theorem hasParentSeg_dotdot {n : String} (h : hasParentSeg n = true) : dotdotIn n = true := by
  rw [dotdotIn, containsSeg_iff]
  have := compsAux_parent_infix n.toList [] h
  simpa using this

/-- The badness categories of claim C1: empty, null byte, control
character, leading root separator, parent-directory segment. -/
def badFilename (n : String) : Prop :=
  n.toList = [] ∨
  n.toList.contains (Char.ofNat 0) = true ∨
  (∃ c ∈ n.toList, c.toNat < 32) ∨
  strStarts n "/" = true ∨
  hasParentSeg n = true

theorem validate_filename_bad {n : String} (hb : badFilename n) :
    ∃ e : SrvError, e.code = 400 ∧ validate_filename n = .error e := by
  unfold validate_filename
  split
  · exact ⟨_, rfl, rfl⟩
  split
  · exact ⟨_, rfl, rfl⟩
  split
  · exact ⟨_, rfl, rfl⟩
  split
  · exact ⟨_, rfl, rfl⟩
  · rename_i h1 h2 h3 h4
    exfalso
    rcases hb with hb | hb | hb | hb | hb
    · exact h1 (List.isEmpty_iff.mpr hb)
    · exact h2 (by rw [hb, Bool.true_or])
    · refine h2 ?_
      obtain ⟨c, hcm, hcv⟩ := hb
      have hany : n.toList.any (fun c => c.toNat < 32) = true :=
        List.any_eq_true.mpr ⟨c, hcm, by simpa using hcv⟩
      rw [hany, Bool.or_true]
    · exact h3 hb
    · exact h4 (hasParentSeg_dotdot hb)

theorem validate_filename_dotdot {n : String} (hd : dotdotIn n = true) :
    ∃ e : SrvError, e.code = 400 ∧ validate_filename n = .error e := by
  unfold validate_filename
  split
  · exact ⟨_, rfl, rfl⟩
  split
  · exact ⟨_, rfl, rfl⟩
  split
  · exact ⟨_, rfl, rfl⟩
  exact ⟨_, rfl, rfl⟩

/-- All validator errors carry code 400, or validation succeeds. -/
theorem validate_filename_cases (n : String) :
    validate_filename n = .ok () ∨
      ∃ e : SrvError, e.code = 400 ∧ validate_filename n = .error e := by
  unfold validate_filename
  split
  · exact Or.inr ⟨_, rfl, rfl⟩
  split
  · exact Or.inr ⟨_, rfl, rfl⟩
  split
  · exact Or.inr ⟨_, rfl, rfl⟩
  split
  · exact Or.inr ⟨_, rfl, rfl⟩
  · exact Or.inl rfl

/-! ## Concrete fixtures used by witnesses -/

/-- Default configuration (moonraker.conf defaults, lines 92-95). -/
def cfgW : Config :=
  { enabled := true, temp_dir := ".helix_temp", symlink_dir := ".helix_print",
    cleanup_delay := 86400 }

/-- An environment where every external call succeeds. -/
def envW : Env :=
  { now := 1000, osSymlinkFails := false, klippyFails := false, dbFails := false }

/-- An initialized state with an original file and an uploaded temp file,
no database persistence. -/
def stW : HPState :=
  { gcReady := true, useSqlite := false,
    gcFs := [("model.gcode", .file), (".helix_temp/mod.gcode", .file)],
    thumbs := none, active_prints := [], db := [], nextId := 1,
    history := none, timers := [] }

/-- A well-formed request against `stW`. -/
def reqW : Request :=
  { original_filename := "model.gcode", temp_file_path := ".helix_temp/mod.gcode",
    modifications := ["z_offset"], copy_metadata := false }

/-- The same request with a traversal attempt in the original filename. -/
def reqBadW : Request :=
  { reqW with original_filename := "../evil.gcode" }

/-! ## Claim C1 -/

/-- Claim C1: for every filename that is empty, contains a null byte or a
control character, starts with a root separator, or contains a
parent-directory segment — supplied as `original_filename` or as
`temp_file_path` — the `print_modified` request fails with a
validation-class error (HTTP 400) and the state is returned exactly as it
was: no temporary file alias, symlink or thumbnail alias is created. -/
theorem C1_invalid_filename_rejected (cfg : Config) (env : Env) (req : Request) (s : HPState)
    (hen : cfg.enabled = true) (hgc : s.gcReady = true)
    (hbad : badFilename req.original_filename ∨ badFilename req.temp_file_path) :
    ∃ e : SrvError, e.code = 400 ∧ handle_print_modified cfg env req s = (.error e, s) := by
  have hne : (!cfg.enabled) = false := by rw [hen]; rfl
  have hng : (!s.gcReady) = false := by rw [hgc]; rfl
  unfold handle_print_modified
  rw [hne, hng]
  simp only [Bool.false_eq_true, if_false]
  rcases hbad with hb | hb
  · obtain ⟨e, hc, hval⟩ := validate_filename_bad hb
    rw [hval]
    exact ⟨e, hc, rfl⟩
  · rcases validate_filename_cases req.original_filename with hok | ⟨e1, hc1, he1⟩
    · rw [hok]
      obtain ⟨e2, hc2, hval2⟩ := validate_filename_bad hb
      rw [hval2]
      exact ⟨e2, hc2, rfl⟩
    · rw [he1]
      exact ⟨e1, hc1, rfl⟩

/-- Witness for C1 at a concrete traversal filename. -/
theorem C1_invalid_filename_rejected_witness :
    ∃ e : SrvError, e.code = 400 ∧
      handle_print_modified cfgW envW reqBadW stW = (.error e, stW) :=
  C1_invalid_filename_rejected cfgW envW reqBadW stW rfl rfl
    (Or.inl (Or.inr (Or.inr (Or.inr (Or.inr (by decide))))))

/-! ## Claim C10 -/

/-- Claim C10: filename validation rejects every filename containing the
two-character substring `..` anywhere — including inside a single name
component such as `"my..file.gcode"` that contains no actual
parent-directory path segment — so the rejected set is a strict superset
of the filenames containing a parent-directory segment. -/
theorem C10_dotdot_rejection_superset :
    (∀ n : String, dotdotIn n = true →
        ∃ e : SrvError, e.code = 400 ∧ validate_filename n = .error e)
    ∧ (∀ n : String, hasParentSeg n = true →
        ∃ e : SrvError, e.code = 400 ∧ validate_filename n = .error e)
    ∧ (∃ e : SrvError, e.code = 400 ∧ validate_filename "my..file.gcode" = .error e)
    ∧ hasParentSeg "my..file.gcode" = false :=
  ⟨fun _ h => validate_filename_dotdot h,
   fun _ h => validate_filename_dotdot (hasParentSeg_dotdot h),
   validate_filename_dotdot (by decide),
   by decide⟩

/-- Witness for C10 at a concrete filename. -/
theorem C10_dotdot_rejection_superset_witness :
    ∃ e : SrvError, e.code = 400 ∧ validate_filename "a..b.gcode" = .error e :=
  C10_dotdot_rejection_superset.1 "a..b.gcode" (by decide)

/-! ## Claim C6 -/

/-- Core property of `_create_symlink_atomic` without OS-level failure:
it always succeeds, leaving exactly one entry at the link path — a
symlink to the requested target — and touching no other path. -/
theorem create_symlink_atomic_ok (fs : Fs) (l t : String) :
    ∃ fs', create_symlink_atomic false fs l t = .ok fs'
      ∧ dictLookup fs' l = some (.symlink t)
      ∧ countKey fs' l = 1
      ∧ ∀ k, k ≠ l → dictLookup fs' k = dictLookup fs k := by
  unfold create_symlink_atomic symlink_to
  simp only [Bool.false_eq_true, if_false]
  cases hfs : dictLookup fs l with
  | none =>
    exact ⟨dictInsert fs l (.symlink t), rfl,
      dictLookup_insert_self fs l _, countKey_insert_self fs l _,
      fun k hk => dictLookup_insert_ne fs l k _ (Ne.symm hk)⟩
  | some e =>
    have hcond : (isSymlinkAt fs l || fsExists fs l) = true := by
      cases e with
      | file =>
        have : fsExists fs l = true := by rw [fsExists, hfs]
        rw [this, Bool.or_true]
      | symlink t' =>
        have : isSymlinkAt fs l = true := by rw [isSymlinkAt, hfs]
        rw [this, Bool.true_or]
    rw [hcond]
    simp only [if_true]
    rw [dictLookup_erase_self]
    refine ⟨dictInsert (dictErase fs l) l (.symlink t), rfl,
      dictLookup_insert_self _ l _, countKey_insert_self _ l _, fun k hk => ?_⟩
    rw [dictLookup_insert_ne _ l k _ (Ne.symm hk), dictLookup_erase_ne _ l k (Ne.symm hk)]

/-- Claim C6: calling the alias-creation routine twice for the same link
path with two different targets succeeds both times (absent OS-level
failure) and leaves a single entry at the path — a symlink pointing at
the second target — with no duplicate or dangling entry. -/
theorem C6_create_or_replace_converges (fs : Fs) (l t1 t2 : String) :
    ∃ fs1 fs2 : Fs,
      create_symlink_atomic false fs l t1 = .ok fs1 ∧
      create_symlink_atomic false fs1 l t2 = .ok fs2 ∧
      dictLookup fs2 l = some (.symlink t2) ∧
      countKey fs2 l = 1 := by
  obtain ⟨fs1, h1, _, _, _⟩ := create_symlink_atomic_ok fs l t1
  obtain ⟨fs2, h2, hl2, hc2, _⟩ := create_symlink_atomic_ok fs1 l t2
  exact ⟨fs1, fs2, h1, h2, hl2, hc2⟩

/-! ## Claim C7 -/

/-- Claim C7: for a terminal print record with a captured `job_id` and a
history capability exposing both `get_job` and `modify_job`, when the job
is found the patcher stores back a filename equal to
`original_filename` with the substitute-directory prefix stripped when
present, and auxiliary data equal to the job's previous mapping with the
four substitution keys merged in and every unrelated key preserved; when
the capability is incomplete or `job_id` was never captured, the patch is
skipped and the store is unchanged. -/
theorem C7_history_patch (cfg : Config) (pi : PrintInfo) (h : HistoryStore) :
    ((h.hasGetJob = false ∨ h.hasModifyJob = false ∨ pi.job_id = none) →
        patch_history_entry cfg pi h = h)
    ∧ (∀ jid job, pi.job_id = some jid → h.hasGetJob = true → h.hasModifyJob = true →
        dictLookup h.jobs jid = some job →
        ∃ job', dictLookup (patch_history_entry cfg pi h).jobs jid = some job'
          ∧ job'.filename = stripDirPart cfg.symlink_dir pi.original_filename
          ∧ dictLookup job'.auxiliary_data "helix_modifications"
              = some (.listVal pi.modifications)
          ∧ dictLookup job'.auxiliary_data "helix_temp_file"
              = some (.strVal pi.temp_filename)
          ∧ dictLookup job'.auxiliary_data "helix_symlink"
              = some (.strVal pi.symlink_filename)
          ∧ dictLookup job'.auxiliary_data "helix_original"
              = some (.strVal pi.original_filename)
          ∧ ∀ k, k ≠ "helix_modifications" → k ≠ "helix_temp_file" →
              k ≠ "helix_symlink" → k ≠ "helix_original" →
              dictLookup job'.auxiliary_data k = dictLookup job.auxiliary_data k) := by
  constructor
  · intro hskip
    unfold patch_history_entry
    cases hj : pi.job_id with
    | none => rfl
    | some jid =>
      rcases hskip with hg | hg | hg
      · rw [hg]
        simp
      · rw [hg]
        simp
      · rw [hj] at hg
        exact absurd hg (by simp)
  · intro jid job hjid hget hmod hfound
    unfold patch_history_entry
    rw [hjid, hget, hmod]
    simp only [Bool.and_self, Bool.not_true, Bool.false_eq_true, if_false]
    rw [hfound]
    refine ⟨_, dictLookup_insert_self _ jid _, rfl, ?_, ?_, ?_, ?_, ?_⟩
    · rw [dictLookup_insert_ne _ _ _ _ (by decide),
          dictLookup_insert_ne _ _ _ _ (by decide),
          dictLookup_insert_ne _ _ _ _ (by decide),
          dictLookup_insert_self]
    · rw [dictLookup_insert_ne _ _ _ _ (by decide),
          dictLookup_insert_ne _ _ _ _ (by decide),
          dictLookup_insert_self]
    · rw [dictLookup_insert_ne _ _ _ _ (by decide),
          dictLookup_insert_self]
    · rw [dictLookup_insert_self]
    · intro k hk1 hk2 hk3 hk4
      rw [dictLookup_insert_ne _ _ _ _ (Ne.symm hk4),
          dictLookup_insert_ne _ _ _ _ (Ne.symm hk3),
          dictLookup_insert_ne _ _ _ _ (Ne.symm hk2),
          dictLookup_insert_ne _ _ _ _ (Ne.symm hk1)]

/-! ## Frame lemmas for the handler stages -/

theorem copy_metadata_frame (a b : String) (s : HPState) :
    (copy_metadata a b s).gcReady = s.gcReady
    ∧ (copy_metadata a b s).useSqlite = s.useSqlite
    ∧ (copy_metadata a b s).gcFs = s.gcFs
    ∧ (copy_metadata a b s).active_prints = s.active_prints
    ∧ (copy_metadata a b s).db = s.db
    ∧ (copy_metadata a b s).nextId = s.nextId
    ∧ (copy_metadata a b s).history = s.history
    ∧ (copy_metadata a b s).timers = s.timers := by
  unfold copy_metadata
  split
  · exact ⟨rfl, rfl, rfl, rfl, rfl, rfl, rfl, rfl⟩
  · split
    · exact ⟨rfl, rfl, rfl, rfl, rfl, rfl, rfl, rfl⟩
    · exact ⟨rfl, rfl, rfl, rfl, rfl, rfl, rfl, rfl⟩

theorem persist_print_info_frame (env : Env) (pi : PrintInfo) (s : HPState) :
    ((persist_print_info env pi s).1.original_filename = pi.original_filename
      ∧ (persist_print_info env pi s).1.temp_filename = pi.temp_filename
      ∧ (persist_print_info env pi s).1.symlink_filename = pi.symlink_filename
      ∧ (persist_print_info env pi s).1.modifications = pi.modifications)
    ∧ (persist_print_info env pi s).2.gcReady = s.gcReady
    ∧ (persist_print_info env pi s).2.useSqlite = s.useSqlite
    ∧ (persist_print_info env pi s).2.gcFs = s.gcFs
    ∧ (persist_print_info env pi s).2.thumbs = s.thumbs
    ∧ (persist_print_info env pi s).2.active_prints = s.active_prints
    ∧ (persist_print_info env pi s).2.history = s.history
    ∧ (persist_print_info env pi s).2.timers = s.timers := by
  unfold persist_print_info
  split
  · exact ⟨⟨rfl, rfl, rfl, rfl⟩, rfl, rfl, rfl, rfl, rfl, rfl, rfl⟩
  · split
    · exact ⟨⟨rfl, rfl, rfl, rfl⟩, rfl, rfl, rfl, rfl, rfl, rfl, rfl⟩
    · exact ⟨⟨rfl, rfl, rfl, rfl⟩, rfl, rfl, rfl, rfl, rfl, rfl, rfl⟩

/-- On database failure, persistence is a no-op: the record and the state
are returned unchanged (the failure is logged and absorbed). -/
theorem persist_print_info_dbFail (env : Env) (pi : PrintInfo) (s : HPState)
    (h : env.dbFails = true) : persist_print_info env pi s = (pi, s) := by
  unfold persist_print_info
  split
  · rfl
  · rfl

theorem registerAndPersist_spec (env : Env) (req : Request) (key : String) (fs2 : Fs)
    (s1 : HPState) :
    (registerAndPersist env req key fs2 s1).2.active_prints
        = dictInsert (persist_print_info env (mkPrintInfo env req key)
            { s1 with gcFs := fs2,
                      active_prints := dictInsert s1.active_prints key (mkPrintInfo env req key) }).2.active_prints
            key (registerAndPersist env req key fs2 s1).1
    ∧ (registerAndPersist env req key fs2 s1).1.original_filename = req.original_filename
    ∧ (registerAndPersist env req key fs2 s1).1.temp_filename = req.temp_file_path
    ∧ (registerAndPersist env req key fs2 s1).1.symlink_filename = key
    ∧ (registerAndPersist env req key fs2 s1).1.modifications = req.modifications
    ∧ (registerAndPersist env req key fs2 s1).2.gcFs = fs2
    ∧ (registerAndPersist env req key fs2 s1).2.thumbs = s1.thumbs
    ∧ (registerAndPersist env req key fs2 s1).2.gcReady = s1.gcReady
    ∧ (registerAndPersist env req key fs2 s1).2.useSqlite = s1.useSqlite
    ∧ (registerAndPersist env req key fs2 s1).2.history = s1.history
    ∧ (registerAndPersist env req key fs2 s1).2.timers = s1.timers := by
  obtain ⟨⟨ho, ht, hs, hm⟩, _, hus, hfs, hth, hap, hh, hti⟩ :=
    persist_print_info_frame env (mkPrintInfo env req key)
      { s1 with gcFs := fs2,
                active_prints := dictInsert s1.active_prints key (mkPrintInfo env req key) }
  refine ⟨rfl, ?_, ?_, ?_, ?_, ?_, ?_, ?_, ?_, ?_, ?_⟩
  · exact ho
  · exact ht
  · exact hs
  · exact hm
  · exact hfs
  · exact hth
  · exact persist_print_info_frame env _ _ |>.2.1
  · exact hus
  · exact hh
  · exact hti

/-- Inversion: whenever `_create_symlink_atomic` reports success, the
resulting filesystem holds exactly one entry at the link path — a symlink
to the target — and agrees with the input everywhere else. -/
theorem create_symlink_atomic_ok_inv (osFail : Bool) (fs fs' : Fs) (l t : String)
    (h : create_symlink_atomic osFail fs l t = .ok fs') :
    dictLookup fs' l = some (.symlink t) ∧ countKey fs' l = 1
      ∧ ∀ k, k ≠ l → dictLookup fs' k = dictLookup fs k := by
  cases osFail with
  | true =>
    exfalso
    unfold create_symlink_atomic symlink_to at h
    simp at h
  | false =>
    obtain ⟨fs'', heq, hl, hc, hf⟩ := create_symlink_atomic_ok fs l t
    rw [heq] at h
    have hfs : fs'' = fs' := by
      rw [Except.ok.injEq] at h
      exact h
    subst hfs
    exact ⟨hl, hc, hf⟩

/-! ## Claim C5 -/

/-- Claim C5: after every successful `print_modified` request, the
response names the print filename `symlink_dir/⟨base name of the
original⟩`, exactly one filesystem entry exists at that path — a symlink
pointing at the temporary file — and the registry holds exactly one
record keyed by that filename, carrying the request's identity fields;
moreover, keyed insertion preserves the at-most-one-record-per-key
registry invariant. -/
theorem C5_success_unique_alias_and_record (cfg : Config) (env : Env) (req : Request)
    (s : HPState) (resp : Response) (s' : HPState)
    (h : handle_print_modified cfg env req s = (.ok resp, s')) :
    resp.original_filename = req.original_filename
    ∧ resp.print_filename = cfg.symlink_dir ++ "/" ++ pathName req.original_filename
    ∧ resp.temp_filename = req.temp_file_path
    ∧ resp.status = "printing"
    ∧ dictLookup s'.gcFs resp.print_filename = some (.symlink req.temp_file_path)
    ∧ countKey s'.gcFs resp.print_filename = 1
    ∧ (∃ pi : PrintInfo,
        dictLookup s'.active_prints resp.print_filename = some pi
        ∧ pi.symlink_filename = resp.print_filename
        ∧ pi.temp_filename = req.temp_file_path
        ∧ pi.original_filename = req.original_filename
        ∧ pi.modifications = req.modifications)
    ∧ countKey s'.active_prints resp.print_filename = 1
    ∧ ((∀ k, countKey s.active_prints k ≤ 1) → ∀ k, countKey s'.active_prints k ≤ 1) := by
  unfold handle_print_modified at h
  split at h
  · simp at h
  split at h
  · simp at h
  split at h
  · simp at h
  split at h
  · simp at h
  split at h
  · simp at h
  split at h
  · simp at h
  split at h
  · simp at h
  generalize hs1e : (if req.copy_metadata then
      copy_metadata req.original_filename req.temp_file_path s else s) = s1 at h
  have hact : s1.active_prints = s.active_prints := by
    rw [← hs1e]
    split
    · exact (copy_metadata_frame _ _ s).2.2.2.1
    · rfl
  unfold handle_after_checks at h
  split at h
  · simp at h
  rename_i fs2 hcre
  obtain ⟨hl2, hc2, _⟩ := create_symlink_atomic_ok_inv _ _ _ _ _ hcre
  unfold handle_with_link at h
  split at h
  · simp at h
  rw [Prod.mk.injEq, Except.ok.injEq] at h
  obtain ⟨hrec, hstate⟩ := h
  subst hstate
  obtain ⟨hra, hro, hrt, hrsym, hrm, hrfs, _, _, _, _, _⟩ :=
    registerAndPersist_spec env req (cfg.symlink_dir ++ "/" ++ pathName req.original_filename)
      fs2 s1
  refine ⟨?_, ?_, ?_, ?_, ?_, ?_, ?_, ?_, ?_⟩
  · rw [← hrec]
  · rw [← hrec]
  · rw [← hrec]
  · rw [← hrec]
  · rw [← hrec, hrfs]
    exact hl2
  · rw [← hrec, hrfs]
    exact hc2
  · rw [← hrec]
    refine ⟨(registerAndPersist env req
        (cfg.symlink_dir ++ "/" ++ pathName req.original_filename) fs2 s1).1,
      ?_, hrsym, hrt, hro, hrm⟩
    rw [hra]
    exact dictLookup_insert_self _ _ _
  · rw [← hrec, hra]
    exact countKey_insert_self _ _ _
  · intro hb k
    rw [hra]
    by_cases hk : k = cfg.symlink_dir ++ "/" ++ pathName req.original_filename
    · rw [hk, countKey_insert_self]
    · rw [countKey_insert_ne _ _ _ _ (Ne.symm hk)]
      have hpact := (persist_print_info_frame env
        (mkPrintInfo env req (cfg.symlink_dir ++ "/" ++ pathName req.original_filename))
        { s1 with gcFs := fs2,
                  active_prints := dictInsert s1.active_prints
                    (cfg.symlink_dir ++ "/" ++ pathName req.original_filename)
                    (mkPrintInfo env req
                      (cfg.symlink_dir ++ "/" ++ pathName req.original_filename)) }).2.2.2.2.2.1
      rw [hpact, countKey_insert_ne _ _ _ _ (Ne.symm hk), hact]
      exact hb k

deriving instance DecidableEq for Except

/-- The record registered by the witness run. -/
def piC5 : PrintInfo :=
  { original_filename := "model.gcode", temp_filename := ".helix_temp/mod.gcode",
    symlink_filename := ".helix_print/model.gcode", modifications := ["z_offset"],
    start_time := 1000, job_id := none, db_id := none }

/-- The response of the witness run. -/
def respW : Response :=
  { original_filename := "model.gcode", print_filename := ".helix_print/model.gcode",
    temp_filename := ".helix_temp/mod.gcode", status := "printing" }

/-- The state after the witness run. -/
def stC5 : HPState :=
  { gcReady := true, useSqlite := false,
    gcFs := [(".helix_print/model.gcode", .symlink ".helix_temp/mod.gcode"),
             ("model.gcode", .file), (".helix_temp/mod.gcode", .file)],
    thumbs := none, active_prints := [(".helix_print/model.gcode", piC5)],
    db := [], nextId := 1, history := none, timers := [] }

/-- Witness for C5: a concrete successful request. -/
theorem C5_success_unique_alias_and_record_witness :
    handle_print_modified cfgW envW reqW stW = (.ok respW, stC5)
    ∧ dictLookup stC5.gcFs respW.print_filename = some (.symlink reqW.temp_file_path)
    ∧ countKey stC5.active_prints respW.print_filename = 1 := by
  have hh : handle_print_modified cfgW envW reqW stW = (.ok respW, stC5) := by decide
  obtain ⟨_, _, _, _, h5, _, _, h8, _⟩ :=
    C5_success_unique_alias_and_record cfgW envW reqW stW respW stC5 hh
  exact ⟨hh, h5, h8⟩

/-! ## Path equations for the handler -/

theorem create_symlink_atomic_osfail (fs : Fs) (l t : String) :
    create_symlink_atomic true fs l t = .error .osError := rfl

/-- With all validation checks passing, the handler reduces to the
post-check continuation applied to the (optionally) thumbnail-mirrored
state. -/
theorem handle_print_modified_checks_pass (cfg : Config) (env : Env) (req : Request)
    (s : HPState)
    (hen : cfg.enabled = true) (hgc : s.gcReady = true)
    (hv1 : validate_filename req.original_filename = .ok ())
    (hv2 : validate_filename req.temp_file_path = .ok ())
    (ho : fsExists s.gcFs req.original_filename = true)
    (hns : isSymlinkAt s.gcFs req.original_filename = false)
    (ht : fsExists s.gcFs req.temp_file_path = true) :
    handle_print_modified cfg env req s
      = handle_after_checks cfg env req
          (if req.copy_metadata then
             copy_metadata req.original_filename req.temp_file_path s
           else s) := by
  have hne : (!cfg.enabled) = false := by rw [hen]; rfl
  have hng : (!s.gcReady) = false := by rw [hgc]; rfl
  have hfo : (!(fsExists s.gcFs req.original_filename)) = false := by rw [ho]; rfl
  have hft : (!(fsExists s.gcFs req.temp_file_path)) = false := by rw [ht]; rfl
  unfold handle_print_modified
  rw [hne, hng, hv1, hv2, hfo, hns, hft]
  rfl

theorem handle_after_checks_ok (cfg : Config) (env : Env) (req : Request) (s1 : HPState)
    (fs2 : Fs)
    (hcre : create_symlink_atomic env.osSymlinkFails s1.gcFs
        (cfg.symlink_dir ++ "/" ++ pathName req.original_filename) req.temp_file_path
        = .ok fs2) :
    handle_after_checks cfg env req s1
      = handle_with_link cfg env req s1
          (cfg.symlink_dir ++ "/" ++ pathName req.original_filename) fs2 := by
  unfold handle_after_checks
  rw [hcre]

theorem handle_after_checks_fail (cfg : Config) (env : Env) (req : Request) (s1 : HPState)
    (hos : env.osSymlinkFails = true) :
    handle_after_checks cfg env req s1
      = (.error ⟨"Failed to create symlink", 500⟩,
         { s1 with gcFs := dictErase s1.gcFs req.temp_file_path }) := by
  unfold handle_after_checks
  rw [hos, create_symlink_atomic_osfail]

theorem handle_with_link_ok (cfg : Config) (env : Env) (req : Request) (s1 : HPState)
    (key : String) (fs2 : Fs) (hkf : env.klippyFails = false) :
    handle_with_link cfg env req s1 key fs2
      = (.ok { original_filename := req.original_filename, print_filename := key,
               temp_filename := req.temp_file_path, status := "printing" },
         (registerAndPersist env req key fs2 s1).2) := by
  unfold handle_with_link
  rw [hkf]
  simp only [Bool.false_eq_true, if_false]

theorem handle_with_link_fail (cfg : Config) (env : Env) (req : Request) (s1 : HPState)
    (key : String) (fs2 : Fs) (hkf : env.klippyFails = true) :
    handle_with_link cfg env req s1 key fs2
      = (.error ⟨"Failed to start print", 500⟩,
         { (registerAndPersist env req key fs2 s1).2 with
             gcFs := dictErase (dictErase (registerAndPersist env req key fs2 s1).2.gcFs key)
                       req.temp_file_path,
             active_prints := dictErase (registerAndPersist env req key fs2 s1).2.active_prints
                       key }) := by
  unfold handle_with_link
  rw [if_pos hkf]

/-- On database failure, registration still happens but persistence is a
no-op: the registry ends up holding the bare record (with `db_id` unset)
and the durable table is untouched. -/
theorem registerAndPersist_dbFail (env : Env) (req : Request) (key : String) (fs2 : Fs)
    (s1 : HPState) (h : env.dbFails = true) :
    registerAndPersist env req key fs2 s1
      = (mkPrintInfo env req key,
         { s1 with gcFs := fs2,
                   active_prints := dictInsert
                     (dictInsert s1.active_prints key (mkPrintInfo env req key)) key
                     (mkPrintInfo env req key) }) := by
  unfold registerAndPersist
  simp only [show ∀ pi s, persist_print_info env pi s = (pi, s) from
    fun pi s => persist_print_info_dbFail env pi s h]

theorem cleanup_thumbnail_symlinks_frame (t : String) (s : HPState) :
    (cleanup_thumbnail_symlinks t s).gcReady = s.gcReady
    ∧ (cleanup_thumbnail_symlinks t s).useSqlite = s.useSqlite
    ∧ (cleanup_thumbnail_symlinks t s).gcFs = s.gcFs
    ∧ (cleanup_thumbnail_symlinks t s).active_prints = s.active_prints
    ∧ (cleanup_thumbnail_symlinks t s).db = s.db
    ∧ (cleanup_thumbnail_symlinks t s).nextId = s.nextId
    ∧ (cleanup_thumbnail_symlinks t s).history = s.history
    ∧ (cleanup_thumbnail_symlinks t s).timers = s.timers := by
  unfold cleanup_thumbnail_symlinks
  split
  · exact ⟨rfl, rfl, rfl, rfl, rfl, rfl, rfl, rfl⟩
  split
  · exact ⟨rfl, rfl, rfl, rfl, rfl, rfl, rfl, rfl⟩
  · exact ⟨rfl, rfl, rfl, rfl, rfl, rfl, rfl, rfl⟩

/-- On database failure, the cleanup scheduler still unlinks the alias
and thumbnails and arms the timer, but the durable table is untouched
(the update failure is logged and absorbed). -/
theorem schedule_cleanup_dbFail (cfg : Config) (env : Env) (pi : PrintInfo) (s : HPState)
    (h : env.dbFails = true) : (schedule_cleanup cfg env pi s).db = s.db := by
  cases hgr : s.gcReady with
  | false => simp only [schedule_cleanup, hgr, Bool.not_false, if_true]
  | true =>
    simp only [schedule_cleanup, hgr, h, Bool.not_true, Bool.and_false,
      Bool.false_eq_true, if_false]
    exact (cleanup_thumbnail_symlinks_frame _ _).2.2.2.2.1

/-! ## Claim C8 -/

/-- Claim C8: a durable-store failure is absorbed, never raised: a
`print_modified` request on which only the database fails still returns
the success response, the registry entry exists (with `db_id` unset —
memory-only tracking), the symlink exists, and the durable table is
untouched; likewise the cleanup scheduler leaves the durable table
untouched when the database fails, while still proceeding. -/
theorem C8_db_failure_nonfatal (cfg : Config) (env : Env) (req : Request) (s : HPState)
    (hdb : env.dbFails = true)
    (hen : cfg.enabled = true) (hgc : s.gcReady = true)
    (hv1 : validate_filename req.original_filename = .ok ())
    (hv2 : validate_filename req.temp_file_path = .ok ())
    (ho : fsExists s.gcFs req.original_filename = true)
    (hns : isSymlinkAt s.gcFs req.original_filename = false)
    (ht : fsExists s.gcFs req.temp_file_path = true)
    (hos : env.osSymlinkFails = false) (hkf : env.klippyFails = false) :
    (handle_print_modified cfg env req s).1
      = .ok { original_filename := req.original_filename
              print_filename := cfg.symlink_dir ++ "/" ++ pathName req.original_filename
              temp_filename := req.temp_file_path
              status := "printing" }
    ∧ (handle_print_modified cfg env req s).2.db = s.db
    ∧ (handle_print_modified cfg env req s).2.nextId = s.nextId
    ∧ (∃ pi : PrintInfo,
         dictLookup (handle_print_modified cfg env req s).2.active_prints
           (cfg.symlink_dir ++ "/" ++ pathName req.original_filename) = some pi
         ∧ pi.db_id = none)
    ∧ dictLookup (handle_print_modified cfg env req s).2.gcFs
        (cfg.symlink_dir ++ "/" ++ pathName req.original_filename)
        = some (.symlink req.temp_file_path)
    ∧ (∀ pi2 s2, (schedule_cleanup cfg env pi2 s2).db = s2.db) := by
  rw [handle_print_modified_checks_pass cfg env req s hen hgc hv1 hv2 ho hns ht]
  generalize hs1e : (if req.copy_metadata then
      copy_metadata req.original_filename req.temp_file_path s else s) = s1
  have hfr : s1.gcFs = s.gcFs ∧ s1.db = s.db ∧ s1.nextId = s.nextId := by
    rw [← hs1e]
    split
    · have hcm := copy_metadata_frame req.original_filename req.temp_file_path s
      exact ⟨hcm.2.2.1, hcm.2.2.2.2.1, hcm.2.2.2.2.2.1⟩
    · exact ⟨rfl, rfl, rfl⟩
  obtain ⟨fs2, hcre0, hl2, hc2, _⟩ := create_symlink_atomic_ok s1.gcFs
    (cfg.symlink_dir ++ "/" ++ pathName req.original_filename) req.temp_file_path
  have hcre : create_symlink_atomic env.osSymlinkFails s1.gcFs
      (cfg.symlink_dir ++ "/" ++ pathName req.original_filename) req.temp_file_path
      = .ok fs2 := by
    rw [hos]; exact hcre0
  rw [handle_after_checks_ok cfg env req s1 fs2 hcre,
      handle_with_link_ok cfg env req s1 _ fs2 hkf,
      registerAndPersist_dbFail env req _ fs2 s1 hdb]
  refine ⟨rfl, hfr.2.1, hfr.2.2,
    ⟨mkPrintInfo env req (cfg.symlink_dir ++ "/" ++ pathName req.original_filename),
      dictLookup_insert_self _ _ _, rfl⟩,
    hl2, fun pi2 s2 => schedule_cleanup_dbFail cfg env pi2 s2 hdb⟩

/-- An environment in which only durable-store calls fail. -/
def envDbF : Env :=
  { now := 1000, osSymlinkFails := false, klippyFails := false, dbFails := true }

/-- The witness state for C8: persistence enabled. -/
def stC8 : HPState := { stW with useSqlite := true }

/-- Witness for C8: a concrete request whose database insert fails still
succeeds and leaves the durable table untouched. -/
theorem C8_db_failure_nonfatal_witness :
    (handle_print_modified cfgW envDbF reqW stC8).1 = .ok respW
    ∧ (handle_print_modified cfgW envDbF reqW stC8).2.db = stC8.db := by
  obtain ⟨h1, h2, _⟩ := C8_db_failure_nonfatal cfgW envDbF reqW stC8 rfl rfl rfl
    (by decide) (by decide) (by decide) (by decide) (by decide) rfl rfl
  refine ⟨?_, h2⟩
  rw [h1]
  decide

/-! ## Claim C2 -/

/-- An environment in which OS-level symlink creation fails. -/
def envSymF : Env :=
  { now := 10, osSymlinkFails := true, klippyFails := false, dbFails := false }

/-- A state holding one thumbnail for the original file. -/
def stC2 : HPState :=
  { gcReady := true, useSqlite := false,
    gcFs := [("orig.gcode", .file), (".helix_temp/mod.gcode", .file)],
    thumbs := some [("orig.png", .file)],
    active_prints := [], db := [], nextId := 1, history := none, timers := [] }

/-- A request with metadata copying enabled. -/
def reqC2 : Request :=
  { original_filename := "orig.gcode", temp_file_path := ".helix_temp/mod.gcode",
    modifications := [], copy_metadata := true }

/-- Counterexample to claim C2 as stated: on a request whose metadata
copying created the thumbnail alias `mod.png`, a symlink-creation failure
propagates the infrastructure error (500) while that thumbnail alias is
still present in the resulting state — so not every artifact already
created is deleted before the error is propagated. -/
theorem C2_counterexample :
    (handle_print_modified cfgW envSymF reqC2 stC2).1
        = .error ⟨"Failed to create symlink", 500⟩
    ∧ (match (handle_print_modified cfgW envSymF reqC2 stC2).2.thumbs with
       | some th => dictLookup th "mod.png"
       | none => none) = some (.symlink "orig.png") := by decide

/-- Claim C2 (amended): when symlink creation fails, the temporary file
is deleted before the infrastructure error propagates (no alias or
registry entry exists yet, and the state is otherwise exactly the
post-metadata state — in particular thumbnail aliases created by metadata
copying are not rolled back); when the print-start command fails, the
filename alias, the temporary file and the registry entry are all
deleted before the error propagates, while thumbnail aliases (and the
durable row) are again not rolled back. -/
theorem C2_rollback_scope (cfg : Config) (env : Env) (req : Request) (s : HPState)
    (hen : cfg.enabled = true) (hgc : s.gcReady = true)
    (hv1 : validate_filename req.original_filename = .ok ())
    (hv2 : validate_filename req.temp_file_path = .ok ())
    (ho : fsExists s.gcFs req.original_filename = true)
    (hns : isSymlinkAt s.gcFs req.original_filename = false)
    (ht : fsExists s.gcFs req.temp_file_path = true) :
    (env.osSymlinkFails = true →
      handle_print_modified cfg env req s
        = (.error ⟨"Failed to create symlink", 500⟩,
           { (if req.copy_metadata then
               copy_metadata req.original_filename req.temp_file_path s else s) with
             gcFs := dictErase
               (if req.copy_metadata then
                 copy_metadata req.original_filename req.temp_file_path s else s).gcFs
               req.temp_file_path }))
    ∧ (env.osSymlinkFails = false → env.klippyFails = true →
        (handle_print_modified cfg env req s).1 = .error ⟨"Failed to start print", 500⟩
        ∧ dictLookup (handle_print_modified cfg env req s).2.gcFs
            (cfg.symlink_dir ++ "/" ++ pathName req.original_filename) = none
        ∧ dictLookup (handle_print_modified cfg env req s).2.gcFs req.temp_file_path = none
        ∧ dictLookup (handle_print_modified cfg env req s).2.active_prints
            (cfg.symlink_dir ++ "/" ++ pathName req.original_filename) = none
        ∧ (handle_print_modified cfg env req s).2.thumbs
            = (if req.copy_metadata then
                copy_metadata req.original_filename req.temp_file_path s else s).thumbs) := by
  constructor
  · intro hos
    rw [handle_print_modified_checks_pass cfg env req s hen hgc hv1 hv2 ho hns ht,
        handle_after_checks_fail cfg env req _ hos]
  · intro hos hkf
    rw [handle_print_modified_checks_pass cfg env req s hen hgc hv1 hv2 ho hns ht]
    generalize (if req.copy_metadata then
        copy_metadata req.original_filename req.temp_file_path s else s) = s1
    obtain ⟨fs2, hcre0, _, _, _⟩ := create_symlink_atomic_ok s1.gcFs
      (cfg.symlink_dir ++ "/" ++ pathName req.original_filename) req.temp_file_path
    have hcre : create_symlink_atomic env.osSymlinkFails s1.gcFs
        (cfg.symlink_dir ++ "/" ++ pathName req.original_filename) req.temp_file_path
        = .ok fs2 := by
      rw [hos]; exact hcre0
    rw [handle_after_checks_ok cfg env req s1 fs2 hcre,
        handle_with_link_fail cfg env req s1 _ fs2 hkf]
    refine ⟨rfl, ?_, dictLookup_erase_self _ _, dictLookup_erase_self _ _,
      (registerAndPersist_spec env req _ fs2 s1).2.2.2.2.2.2.1⟩
    by_cases hkt : cfg.symlink_dir ++ "/" ++ pathName req.original_filename
        = req.temp_file_path
    · rw [← hkt]
      exact dictLookup_erase_self _ _
    · rw [dictLookup_erase_ne _ _ _ (fun hc => hkt hc.symm)]
      exact dictLookup_erase_self _ _

/-- Witness for the amended C2 at the counterexample input. -/
theorem C2_rollback_scope_witness :
    handle_print_modified cfgW envSymF reqC2 stC2
      = (.error ⟨"Failed to create symlink", 500⟩,
         { (if reqC2.copy_metadata then
             copy_metadata reqC2.original_filename reqC2.temp_file_path stC2 else stC2) with
           gcFs := dictErase
             (if reqC2.copy_metadata then
               copy_metadata reqC2.original_filename reqC2.temp_file_path stC2 else stC2).gcFs
             reqC2.temp_file_path }) :=
  (C2_rollback_scope cfgW envSymF reqC2 stC2 rfl rfl (by decide) (by decide) (by decide)
    (by decide) (by decide)).1 rfl

/-- A terminal print record with a captured job id. -/
def piW : PrintInfo :=
  { original_filename := "model.gcode", temp_filename := ".helix_temp/mod.gcode",
    symlink_filename := ".helix_print/model.gcode", modifications := ["z_offset"],
    start_time := 1000, job_id := some "42", db_id := none }

/-- A history job carrying an unrelated auxiliary key. -/
def jobW : Job :=
  { filename := ".helix_print/model.gcode",
    auxiliary_data := [("user_note", .strVal "keep")] }

/-- A fully capable history store holding `jobW` under id 42. -/
def histW : HistoryStore :=
  { hasGetJob := true, hasModifyJob := true, jobs := [("42", jobW)] }

/-- Witness for C7: the patch at a concrete record and store. -/
theorem C7_history_patch_witness :
    ∃ job', dictLookup (patch_history_entry cfgW piW histW).jobs "42" = some job'
      ∧ job'.filename = stripDirPart cfgW.symlink_dir piW.original_filename
      ∧ dictLookup job'.auxiliary_data "user_note" = some (.strVal "keep") := by
  obtain ⟨job', h1, h2, _, _, _, _, hpres⟩ :=
    (C7_history_patch cfgW piW histW).2 "42" jobW rfl rfl rfl (by decide)
  exact ⟨job', h1, h2, by
    rw [hpres "user_note" (by decide) (by decide) (by decide) (by decide)]
    decide⟩

/-! ## Claim C3 -/

/-- Claim C3: for every lifecycle event reporting a terminal state
(`complete`, `cancelled` or `error`) whose filename is registered, the
handler equals the pipeline that first applies the history patcher (when
a history capability is present), then the cleanup scheduler, and then
removes the record — and afterwards the registry holds no entry keyed by
that filename. -/
theorem C3_terminal_event_pipeline (cfg : Config) (env : Env) (stats : JobStats)
    (s : HPState) (pi : PrintInfo)
    (hpre : strStarts stats.filename (cfg.symlink_dir ++ "/") = true)
    (hreg : dictLookup s.active_prints stats.filename = some pi)
    (hterm : stats.state = "complete" ∨ stats.state = "cancelled" ∨ stats.state = "error") :
    on_job_state_changed cfg env stats s
      = { schedule_cleanup cfg env pi
            { s with history :=
                match s.history with
                | some h => some (patch_history_entry cfg pi h)
                | none => none } with
          active_prints :=
            dictErase (schedule_cleanup cfg env pi
              { s with history :=
                  match s.history with
                  | some h => some (patch_history_entry cfg pi h)
                  | none => none }).active_prints stats.filename }
    ∧ dictLookup (on_job_state_changed cfg env stats s).active_prints stats.filename
        = none := by
  have hnp : ¬ (stats.state = "printing") := by
    rcases hterm with h | h | h <;> rw [h] <;> decide
  have hng : (!(strStarts stats.filename (cfg.symlink_dir ++ "/"))) = false := by
    rw [hpre]; rfl
  have heq : on_job_state_changed cfg env stats s
      = { schedule_cleanup cfg env pi
            { s with history :=
                match s.history with
                | some h => some (patch_history_entry cfg pi h)
                | none => none } with
          active_prints :=
            dictErase (schedule_cleanup cfg env pi
              { s with history :=
                  match s.history with
                  | some h => some (patch_history_entry cfg pi h)
                  | none => none }).active_prints stats.filename } := by
    unfold on_job_state_changed
    rw [hng]
    simp only [Bool.false_eq_true, if_false]
    rw [hreg]
    simp only [if_neg hnp, if_pos hterm]
  refine ⟨heq, ?_⟩
  rw [heq]
  exact dictLookup_erase_self _ _

/-! ## Reconciliation machinery: filesystem monotonicity -/

/-- `fs'` refines `fs` by deletions only: every path resolves to the same
entry or to nothing. -/
def FsThins (fs' fs : Fs) : Prop :=
  ∀ x, dictLookup fs' x = dictLookup fs x ∨ dictLookup fs' x = none

theorem fsThins_refl (fs : Fs) : FsThins fs fs := fun _ => Or.inl rfl

theorem fsThins_erase (fs : Fs) (k : String) : FsThins (dictErase fs k) fs := by
  intro x
  by_cases h : k = x
  · right
    rw [← h]
    exact dictLookup_erase_self fs k
  · left
    exact dictLookup_erase_ne fs k x h

theorem fsThins_trans {a b c : Fs} (h1 : FsThins a b) (h2 : FsThins b c) : FsThins a c := by
  intro x
  rcases h1 x with h | h
  · rw [h]
    exact h2 x
  · right
    exact h

theorem fsThins_afterTemp (fs : Fs) (r : DbRow) : FsThins (fsAfterTempUnlink fs r) fs := by
  unfold fsAfterTempUnlink
  split
  · exact fsThins_erase fs _
  · exact fsThins_refl fs

theorem fsThins_afterSym (fs : Fs) (r : DbRow) : FsThins (fsAfterSymlinkUnlink fs r) fs := by
  unfold fsAfterSymlinkUnlink
  split
  · exact fsThins_erase fs _
  · exact fsThins_refl fs

theorem fsExists_true_mono {fs' fs : Fs} {p : String} (ht : FsThins fs' fs)
    (h : fsExists fs' p = true) : fsExists fs p = true := by
  cases h1 : dictLookup fs' p with
  | none => simp [fsExists, h1] at h
  | some e =>
    have hfp : dictLookup fs p = some e := by
      rcases ht p with hh | hh
      · rw [← hh, h1]
      · rw [h1] at hh; cases hh
    cases e with
    | file => simp [fsExists, hfp]
    | symlink t =>
      simp only [fsExists, h1] at h
      simp only [fsExists, hfp]
      cases h2 : dictLookup fs' t with
      | none => rw [h2] at h; simp at h
      | some e2 =>
        cases e2 with
        | file =>
          have hft : dictLookup fs t = some .file := by
            rcases ht t with hh | hh
            · rw [← hh, h2]
            · rw [h2] at hh; cases hh
          rw [hft]
        | symlink t2 => rw [h2] at h; simp at h

theorem fsExists_false_mono {fs' fs : Fs} {p : String} (ht : FsThins fs' fs)
    (h : fsExists fs p = false) : fsExists fs' p = false := by
  cases hx : fsExists fs' p with
  | false => rfl
  | true => rw [fsExists_true_mono ht hx] at h; cases h

theorem isSymlinkAt_true_mono {fs' fs : Fs} {p : String} (ht : FsThins fs' fs)
    (h : isSymlinkAt fs' p = true) : isSymlinkAt fs p = true := by
  cases h1 : dictLookup fs' p with
  | none => simp [isSymlinkAt, h1] at h
  | some e =>
    have hfp : dictLookup fs p = some e := by
      rcases ht p with hh | hh
      · rw [← hh, h1]
      · rw [h1] at hh; cases hh
    cases e with
    | file => simp [isSymlinkAt, h1] at h
    | symlink t => simp [isSymlinkAt, hfp]

theorem isSymlinkAt_false_mono {fs' fs : Fs} {p : String} (ht : FsThins fs' fs)
    (h : isSymlinkAt fs p = false) : isSymlinkAt fs' p = false := by
  cases hx : isSymlinkAt fs' p with
  | false => rfl
  | true => rw [isSymlinkAt_true_mono ht hx] at h; cases h

theorem fsAfterTempUnlink_none (fs : Fs) (r : DbRow) :
    fsExists (fsAfterTempUnlink fs r) r.temp_filename = false := by
  unfold fsAfterTempUnlink
  split
  · unfold fsExists
    rw [dictLookup_erase_self]
  · rename_i h
    cases hb : fsExists fs r.temp_filename with
    | false => rfl
    | true => exact absurd hb h

theorem fsAfterSymlinkUnlink_nosym (fs : Fs) (r : DbRow) :
    isSymlinkAt (fsAfterSymlinkUnlink fs r) r.symlink_filename = false := by
  unfold fsAfterSymlinkUnlink
  split
  · unfold isSymlinkAt
    rw [dictLookup_erase_self]
  · rename_i h
    cases hb : isSymlinkAt fs r.symlink_filename with
    | false => rfl
    | true => exact absurd hb h

/-! ## Reconciliation machinery: per-row effects -/

theorem cleanupRow_char (s : HPState) (r : DbRow) :
    (cleanupRow s r).gcFs = fsAfterSymlinkUnlink (fsAfterTempUnlink s.gcFs r) r
    ∧ (cleanupRow s r).db = dbMarkCleaned s.db r.temp_filename
    ∧ (cleanupRow s r).gcReady = s.gcReady
    ∧ (cleanupRow s r).useSqlite = s.useSqlite
    ∧ (cleanupRow s r).thumbs
        = (cleanup_thumbnail_symlinks r.temp_filename
            { s with gcFs := fsAfterSymlinkUnlink (fsAfterTempUnlink s.gcFs r) r }).thumbs := by
  have hfr := cleanup_thumbnail_symlinks_frame r.temp_filename
    { s with gcFs := fsAfterSymlinkUnlink (fsAfterTempUnlink s.gcFs r) r }
  refine ⟨hfr.2.2.1, ?_, hfr.1, hfr.2.1, rfl⟩
  show dbMarkCleaned (cleanup_thumbnail_symlinks r.temp_filename
    { s with gcFs := fsAfterSymlinkUnlink (fsAfterTempUnlink s.gcFs r) r }).db
      r.temp_filename = dbMarkCleaned s.db r.temp_filename
  rw [hfr.2.2.2.2.1]

theorem cleanupRow_thins (s : HPState) (r : DbRow) :
    FsThins (cleanupRow s r).gcFs s.gcFs := by
  rw [(cleanupRow_char s r).1]
  exact fsThins_trans (fsThins_afterSym _ r) (fsThins_afterTemp s.gcFs r)

/-- No thumbnail entry named with this stem prefix is (still) a symlink. -/
def thumbsClean (stem : String) : Option Fs → Prop
  | none => True
  | some th => ∀ e ∈ th, ¬(strStarts e.1 stem = true ∧ isSymlinkEntry e.2 = true)

theorem cleanup_thumbnail_establishes (t : String) (s : HPState) (hgr : s.gcReady = true) :
    thumbsClean (pathStem t) (cleanup_thumbnail_symlinks t s).thumbs := by
  unfold cleanup_thumbnail_symlinks
  rw [hgr]
  simp only [Bool.not_true, Bool.false_eq_true, if_false]
  cases hth : s.thumbs with
  | none =>
    show thumbsClean (pathStem t) s.thumbs
    rw [hth]
    trivial
  | some th =>
    intro e he hbad
    have := List.of_mem_filter he
    rw [hbad.1, hbad.2] at this
    simp at this

theorem cleanup_thumbnail_thumbs_subset (t : String) (s : HPState) :
    ∀ th e, (cleanup_thumbnail_symlinks t s).thumbs = some th → e ∈ th →
      ∃ th0, s.thumbs = some th0 ∧ e ∈ th0 := by
  unfold cleanup_thumbnail_symlinks
  split
  · intro th e h he
    exact ⟨th, h, he⟩
  split
  · intro th e h he
    exact ⟨th, h, he⟩
  · rename_i th0 hth0
    intro th e h he
    rw [Option.some.injEq] at h
    rw [← h] at he
    exact ⟨th0, hth0, List.mem_of_mem_filter he⟩

theorem thumbsClean_cleanupRow (stem : String) (s : HPState) (x : DbRow)
    (h : thumbsClean stem s.thumbs) : thumbsClean stem (cleanupRow s x).thumbs := by
  rw [(cleanupRow_char s x).2.2.2.2]
  cases hth : (cleanup_thumbnail_symlinks x.temp_filename
      { s with gcFs := fsAfterSymlinkUnlink (fsAfterTempUnlink s.gcFs x) x }).thumbs with
  | none => trivial
  | some th =>
    intro e he hbad
    obtain ⟨th0, h0, he0⟩ := cleanup_thumbnail_thumbs_subset x.temp_filename
      { s with gcFs := fsAfterSymlinkUnlink (fsAfterTempUnlink s.gcFs x) x } th e hth he
    have hsth : s.thumbs = some th0 := h0
    rw [hsth] at h
    exact h e he0 hbad

/-! ## Reconciliation machinery: durable-row images -/

/-- The durable table holds an image of `r` (same identity fields,
any status). -/
def hasImage (r : DbRow) (db : List DbRow) : Prop :=
  ∃ r' ∈ db, r'.id = r.id ∧ r'.temp_filename = r.temp_filename ∧ r'.created_at = r.created_at

/-- The durable table holds an image of `r` already marked `cleaned`. -/
def hasCleanImage (r : DbRow) (db : List DbRow) : Prop :=
  ∃ r' ∈ db, r'.id = r.id ∧ r'.temp_filename = r.temp_filename
    ∧ r'.created_at = r.created_at ∧ r'.status = "cleaned"

theorem hasImage_mark (r : DbRow) (db : List DbRow) (temp : String)
    (h : hasImage r db) : hasImage r (dbMarkCleaned db temp) := by
  obtain ⟨r', hm, h1, h2, h3⟩ := h
  refine ⟨if r'.temp_filename = temp then { r' with status := "cleaned" } else r',
    List.mem_map_of_mem _ hm, ?_, ?_, ?_⟩ <;> split <;> simp [h1, h2, h3]

theorem hasCleanImage_mark (r : DbRow) (db : List DbRow) (temp : String)
    (h : hasCleanImage r db) : hasCleanImage r (dbMarkCleaned db temp) := by
  obtain ⟨r', hm, h1, h2, h3, h4⟩ := h
  refine ⟨if r'.temp_filename = temp then { r' with status := "cleaned" } else r',
    List.mem_map_of_mem _ hm, ?_, ?_, ?_, ?_⟩ <;> split <;> simp [h1, h2, h3, h4]

theorem hasCleanImage_mark_self (r : DbRow) (db : List DbRow)
    (h : hasImage r db) : hasCleanImage r (dbMarkCleaned db r.temp_filename) := by
  obtain ⟨r', hm, h1, h2, h3⟩ := h
  refine ⟨{ r' with status := "cleaned" }, ?_, h1, h2, h3, rfl⟩
  have : (if r'.temp_filename = r.temp_filename then { r' with status := "cleaned" } else r')
      = { r' with status := "cleaned" } := by rw [if_pos h2]
  exact this ▸ List.mem_map_of_mem _ hm

/-! ## Reconciliation machinery: the fold -/

/-- The conclusions claim C4 requires for one selected row. -/
def rowDone (r : DbRow) (s : HPState) : Prop :=
  fsExists s.gcFs r.temp_filename = false
  ∧ isSymlinkAt s.gcFs r.symlink_filename = false
  ∧ thumbsClean (pathStem r.temp_filename) s.thumbs
  ∧ hasCleanImage r s.db

theorem rowDone_step (r : DbRow) (s : HPState) (x : DbRow) (h : rowDone r s) :
    rowDone r (cleanupRow s x) := by
  obtain ⟨h1, h2, h3, h4⟩ := h
  refine ⟨fsExists_false_mono (cleanupRow_thins s x) h1,
    isSymlinkAt_false_mono (cleanupRow_thins s x) h2,
    thumbsClean_cleanupRow _ s x h3, ?_⟩
  rw [(cleanupRow_char s x).2.1]
  exact hasCleanImage_mark r s.db x.temp_filename h4

theorem rowDone_establish (s : HPState) (r : DbRow) (hgr : s.gcReady = true)
    (him : hasImage r s.db) : rowDone r (cleanupRow s r) := by
  refine ⟨?_, ?_, ?_, ?_⟩
  · rw [(cleanupRow_char s r).1]
    exact fsExists_false_mono (fsThins_afterSym _ r) (fsAfterTempUnlink_none s.gcFs r)
  · rw [(cleanupRow_char s r).1]
    exact fsAfterSymlinkUnlink_nosym _ r
  · rw [(cleanupRow_char s r).2.2.2.2]
    exact cleanup_thumbnail_establishes r.temp_filename _ hgr
  · rw [(cleanupRow_char s r).2.1]
    exact hasCleanImage_mark_self r s.db him

theorem hasImage_step (r : DbRow) (s : HPState) (x : DbRow) (h : hasImage r s.db) :
    hasImage r (cleanupRow s x).db := by
  rw [(cleanupRow_char s x).2.1]
  exact hasImage_mark r s.db x.temp_filename h

theorem foldl_cleanup_preserves (r : DbRow) :
    ∀ (rows : List DbRow) (s : HPState), rowDone r s → rowDone r (rows.foldl cleanupRow s)
  | [], _, h => h
  | x :: rest, s, h => foldl_cleanup_preserves r rest (cleanupRow s x) (rowDone_step r s x h)

theorem foldl_cleanup_main (r : DbRow) :
    ∀ (rows : List DbRow) (s : HPState), s.gcReady = true → hasImage r s.db → r ∈ rows →
      rowDone r (rows.foldl cleanupRow s)
  | [], _, _, _, hmem => absurd hmem (List.not_mem_nil _)
  | x :: rest, s, hgr, him, hmem => by
      rcases List.mem_cons.mp hmem with heq | hmem'
      · subst heq
        exact foldl_cleanup_preserves r rest (cleanupRow s r) (rowDone_establish s r hgr him)
      · exact foldl_cleanup_main r rest (cleanupRow s x)
          (((cleanupRow_char s x).2.2.1).trans hgr)
          (hasImage_step r s x him) hmem'

/-! ## Claim C4 -/

/-- With the gates open (initialized, SQLite available, database healthy)
the startup pass is the fold over the selected rows followed by the
retention purge. -/
theorem startup_cleanup_run (env : Env) (s : HPState)
    (hgr : s.gcReady = true) (hsql : s.useSqlite = true) (hdb : env.dbFails = false) :
    startup_cleanup env s
      = { (s.db.filter (overdueRow env.now)).foldl cleanupRow s with
          db := ((s.db.filter (overdueRow env.now)).foldl cleanupRow s).db.filter
            (fun r => !(r.status = "cleaned"
                        && decide (r.created_at < env.now - DB_RECORD_MAX_AGE))) } := by
  unfold startup_cleanup
  rw [hgr, hsql, hdb]
  rfl

/-- Claim C4: for every durable row with `status = pending_cleanup` and
`cleanup_scheduled_at` strictly before the current time, the startup
reconciliation pass run with zero in-memory state leaves no temporary
file and no filename alias for that row (deleting them when present —
a missing file causes no error since the pass is total and every deletion
is guarded by an existence check), removes its thumbnail aliases, and
transitions the row's status to `cleaned` (the transitioned row is still
present afterwards provided it is within the retention window; an older
row is purged by the same pass — see C9). -/
theorem C4_startup_reconciliation (env : Env) (s : HPState) (r : DbRow)
    (hgr : s.gcReady = true) (hsql : s.useSqlite = true) (hdb : env.dbFails = false)
    (hmem : s.active_prints = [])
    (hr : r ∈ s.db) (hst : r.status = "pending_cleanup")
    (hsched : ∃ t, r.cleanup_scheduled_at = some t ∧ t < env.now) :
    fsExists (startup_cleanup env s).gcFs r.temp_filename = false
    ∧ isSymlinkAt (startup_cleanup env s).gcFs r.symlink_filename = false
    ∧ thumbsClean (pathStem r.temp_filename) (startup_cleanup env s).thumbs
    ∧ (env.now - DB_RECORD_MAX_AGE ≤ r.created_at →
        ∃ r' ∈ (startup_cleanup env s).db, r'.id = r.id
          ∧ r'.temp_filename = r.temp_filename ∧ r'.status = "cleaned") := by
  have hsel : overdueRow env.now r = true := by
    obtain ⟨t, hts, hlt⟩ := hsched
    unfold overdueRow
    rw [hst, hts]
    simp [hlt]
  have hrin : r ∈ s.db.filter (overdueRow env.now) := List.mem_filter.mpr ⟨hr, hsel⟩
  have hdone := foldl_cleanup_main r (s.db.filter (overdueRow env.now)) s hgr
    ⟨r, hr, rfl, rfl, rfl⟩ hrin
  rw [startup_cleanup_run env s hgr hsql hdb]
  obtain ⟨hf1, hf2, hf3, hf4⟩ := hdone
  refine ⟨hf1, hf2, hf3, fun hage => ?_⟩
  obtain ⟨r', hrm, h1, h2, h3, h4⟩ := hf4
  refine ⟨r', List.mem_filter.mpr ⟨hrm, ?_⟩, h1, h2, h4⟩
  have hnotold : ¬ (r'.created_at < env.now - DB_RECORD_MAX_AGE) := by
    rw [h3]
    omega
  simp [hnotold]

/-- The overdue pending row of the C4 witness. -/
def rowC4 : DbRow :=
  { id := 1, original_filename := "model.gcode", temp_filename := ".helix_temp/mod.gcode",
    symlink_filename := ".helix_print/model.gcode", modifications := "[]",
    job_id := none, created_at := 900, cleanup_scheduled_at := some 950,
    status := "pending_cleanup" }

/-- A crashed-state snapshot: the row's files still exist, nothing is in
memory. -/
def stC4 : HPState :=
  { gcReady := true, useSqlite := true,
    gcFs := [(".helix_temp/mod.gcode", .file),
             (".helix_print/model.gcode", .symlink ".helix_temp/mod.gcode")],
    thumbs := none, active_prints := [], db := [rowC4], nextId := 2,
    history := none, timers := [] }

/-- Witness for C4 at a concrete overdue row. -/
theorem C4_startup_reconciliation_witness :
    fsExists (startup_cleanup envW stC4).gcFs ".helix_temp/mod.gcode" = false
    ∧ isSymlinkAt (startup_cleanup envW stC4).gcFs ".helix_print/model.gcode" = false
    ∧ (∃ r' ∈ (startup_cleanup envW stC4).db, r'.id = 1 ∧ r'.status = "cleaned") := by
  obtain ⟨h1, h2, _, h4⟩ := C4_startup_reconciliation envW stC4 rowC4 rfl rfl rfl rfl
    (by decide) rfl ⟨950, rfl, by decide⟩
  obtain ⟨r', hm, hid, _, hstt⟩ := h4 (by decide)
  exact ⟨h1, h2, r', hm, hid, hstt⟩

/-! ## Claim C9 -/

/-- The environment of the C9 scenario: just past the retention window. -/
def envC9 : Env :=
  { now := 2592002, osSymlinkFails := false, klippyFails := false, dbFails := false }

/-- An overdue `pending_cleanup` row created more than 30 days ago. -/
def rowC9 : DbRow :=
  { id := 1, original_filename := "o.gcode", temp_filename := "t.gcode",
    symlink_filename := ".helix_print/o.gcode", modifications := "[]",
    job_id := none, created_at := 0, cleanup_scheduled_at := some 1,
    status := "pending_cleanup" }

/-- State holding only that row. -/
def stC9 : HPState :=
  { gcReady := true, useSqlite := true, gcFs := [], thumbs := none,
    active_prints := [], db := [rowC9], nextId := 2, history := none, timers := [] }

/-- Counterexample to claim C9 as stated: `rowC9` is **not** in status
`cleaned` at the start of the pass, yet the pass deletes it — the loop
first transitions the overdue row to `cleaned` and the purge of the same
pass then removes it, so a row "not in status cleaned" is not always
retained. -/
theorem C9_counterexample :
    rowC9 ∈ stC9.db ∧ rowC9.status ≠ "cleaned"
    ∧ rowC9.created_at < envC9.now - DB_RECORD_MAX_AGE
    ∧ (startup_cleanup envC9 stC9).db = [] := by decide

/-- A cleaned row is untouched by the per-row database update. -/
theorem DbRow_set_cleaned_self (r : DbRow) (h : r.status = "cleaned") :
    { r with status := "cleaned" } = r := by
  cases r
  simp only [DbRow.mk.injEq, and_true, true_and]
  simp only at h
  rw [h]

theorem foldl_cleanup_mem_fixed (r : DbRow) (hst : r.status = "cleaned") :
    ∀ (rows : List DbRow) (s : HPState), r ∈ s.db → r ∈ (rows.foldl cleanupRow s).db
  | [], _, h => h
  | x :: rest, s, h => foldl_cleanup_mem_fixed r hst rest (cleanupRow s x) (by
      rw [(cleanupRow_char s x).2.1]
      have himg : (if r.temp_filename = x.temp_filename then { r with status := "cleaned" }
          else r) = r := by
        split
        · exact DbRow_set_cleaned_self r hst
        · rfl
      exact himg ▸ List.mem_map_of_mem _ h)

theorem foldl_cleanup_mem_untouched (r : DbRow) :
    ∀ (rows : List DbRow) (s : HPState), (∀ x ∈ rows, x.temp_filename ≠ r.temp_filename) →
      r ∈ s.db → r ∈ (rows.foldl cleanupRow s).db
  | [], _, _, h => h
  | x :: rest, s, hne, h => foldl_cleanup_mem_untouched r rest (cleanupRow s x)
      (fun y hy => hne y (List.mem_cons_of_mem x hy)) (by
        rw [(cleanupRow_char s x).2.1]
        have himg : (if r.temp_filename = x.temp_filename then { r with status := "cleaned" }
            else r) = r := by
          rw [if_neg (fun hc => hne x (List.mem_cons_self x rest) hc.symm)]
        exact himg ▸ List.mem_map_of_mem _ h)

/-- Claim C9 (amended): the purge deletes every row that has status
`cleaned` at purge time and `created_at` older than the 30-day window.
Relative to the input table: a `cleaned` row older than the window is
deleted; a `cleaned` row within the window is retained; a row not in
status `cleaned` is retained provided no overdue `pending_cleanup` row of
the pass shares its `temp_filename` (otherwise the pass itself
transitions it to `cleaned`, and it is then purged when older than the
window — see the counterexample). -/
theorem C9_retention_purge (env : Env) (s : HPState)
    (hgr : s.gcReady = true) (hsql : s.useSqlite = true) (hdb : env.dbFails = false) :
    (∀ r : DbRow, r.status = "cleaned" → r.created_at < env.now - DB_RECORD_MAX_AGE →
        r ∉ (startup_cleanup env s).db)
    ∧ (∀ r ∈ s.db, r.status = "cleaned" → env.now - DB_RECORD_MAX_AGE ≤ r.created_at →
        r ∈ (startup_cleanup env s).db)
    ∧ (∀ r ∈ s.db, r.status ≠ "cleaned" →
        (∀ x ∈ s.db, overdueRow env.now x = true → x.temp_filename ≠ r.temp_filename) →
        r ∈ (startup_cleanup env s).db) := by
  rw [startup_cleanup_run env s hgr hsql hdb]
  refine ⟨?_, ?_, ?_⟩
  · intro r h1 h2 hmem
    have hp := (List.mem_filter.mp hmem).2
    simp [h1, h2] at hp
  · intro r hm h1 h2
    refine List.mem_filter.mpr ⟨foldl_cleanup_mem_fixed r h1 _ s hm, ?_⟩
    have hnotold : ¬ (r.created_at < env.now - DB_RECORD_MAX_AGE) := by omega
    simp [hnotold]
  · intro r hm h1 hsep
    refine List.mem_filter.mpr ⟨foldl_cleanup_mem_untouched r _ s
      (fun x hx => hsep x (List.mem_filter.mp hx).1 (List.mem_filter.mp hx).2) hm, ?_⟩
    simp [h1]

/-- A cleaned row still within the retention window. -/
def rowC9fresh : DbRow :=
  { id := 2, original_filename := "p.gcode", temp_filename := "u.gcode",
    symlink_filename := ".helix_print/p.gcode", modifications := "[]",
    job_id := none, created_at := 2592001, cleanup_scheduled_at := none,
    status := "cleaned" }

/-- A cleaned row older than the retention window. -/
def rowC9old : DbRow :=
  { id := 3, original_filename := "q.gcode", temp_filename := "v.gcode",
    symlink_filename := ".helix_print/q.gcode", modifications := "[]",
    job_id := none, created_at := 0, cleanup_scheduled_at := none,
    status := "cleaned" }

/-- State holding both cleaned rows. -/
def stC9w : HPState :=
  { gcReady := true, useSqlite := true, gcFs := [], thumbs := none,
    active_prints := [], db := [rowC9fresh, rowC9old], nextId := 4,
    history := none, timers := [] }

/-- Witness for the amended C9: the old cleaned row is purged, the fresh
one retained. -/
theorem C9_retention_purge_witness :
    rowC9old ∉ (startup_cleanup envC9 stC9w).db
    ∧ rowC9fresh ∈ (startup_cleanup envC9 stC9w).db := by
  obtain ⟨ha, hb, _⟩ := C9_retention_purge envC9 stC9w rfl rfl rfl
  exact ⟨ha rowC9old rfl (by decide), hb rowC9fresh (by decide) rfl (by decide)⟩

/-- A state with one registered print and a history capability. -/
def stC3 : HPState :=
  { stW with active_prints := [(".helix_print/model.gcode", piW)], history := some histW }

/-- A terminal lifecycle event for the registered filename. -/
def statsC3 : JobStats :=
  { state := "complete", filename := ".helix_print/model.gcode", job_id := none }

/-- Witness for C3 at a concrete terminal event. -/
theorem C3_terminal_event_pipeline_witness :
    dictLookup (on_job_state_changed cfgW envW statsC3 stC3).active_prints
      statsC3.filename = none :=
  (C3_terminal_event_pipeline cfgW envW statsC3 stC3 piW (by decide) (by decide)
    (Or.inl rfl)).2
